import Mathlib

/-!
Shallow embedding of the market-microstructure engine of the
`crypto_ai_trader` repository: the scalping signal engine
(`src/strategies/scalping_strategy.py`), the backtester
(`src/strategies/backtester.py`), and the cross-exchange discrepancy
detector (`crypto_orderbook_monitor/main.py`), together with the
weighted-fill calculator described by the design document (whose
implementation is absent from the sources; only its unit tests remain).

Python floats are modelled as rationals (`ℚ`); Python `None` as `Option`;
a Python dict that is iterated in insertion order as an association list;
an uncaught `ZeroDivisionError` / `IndexError` as `Except.error ()`.
-/

namespace CryptoTrader

/-- Trading signals, mirroring `Signal(Enum)` in `base_strategy.py`. -/
inductive Signal
  | buy
  | sell
  | hold
deriving DecidableEq, Repr

/-- Position side of the scalping strategy (`'LONG'` / `'SHORT'` strings in
the Python source; `self.current_position = None` is `Option.none`). -/
inductive Side
  | long
  | short
deriving DecidableEq, Repr

/-- An order book with `bids` and `asks` ladders of `(price, volume)` pairs,
best level first.  A Python order-book dict that is falsy or misses the
`bids`/`asks` keys is modelled as `Option.none` at use sites. -/
structure OrderBook where
  bids : List (ℚ × ℚ)
  asks : List (ℚ × ℚ)
deriving DecidableEq, Repr

/-- The mutable state of a `ScalpingStrategy` instance: the configuration
fixed by `__init__` plus the position/cooldown fields it mutates.
`entry_price` is a single attribute shared with the `BaseStrategy` parent
(both classes assign `self.entry_price`).  `position` and `name` are the
parent-class fields. -/
structure ScalpState where
  name : String
  position : Signal
  symbol : String
  profit_target : ℚ
  stop_loss : ℚ
  order_book_depth : ℕ
  min_spread : ℚ
  max_position_size : ℚ
  current_position : Option Side
  entry_price : ℚ
  take_profit_price : ℚ
  stop_loss_price : ℚ
  last_signal_time : Option ℚ
  cooldown_period : ℚ
deriving DecidableEq, Repr

/-- `ScalpingStrategy.__init__`: assigns every parameter unconditionally —
there is no validation anywhere in the constructor — and initialises the
position/cooldown fields (`current_position = None`, prices `0.0`,
`last_signal_time = None`, `cooldown_period = 5`). -/
def scalping_init (symbol : String) (profit_target stop_loss : ℚ)
    (order_book_depth : ℕ) (min_spread max_position_size : ℚ) : ScalpState :=
  { name := "Scalping Strategy"
    position := Signal.hold
    symbol := symbol
    profit_target := profit_target
    stop_loss := stop_loss
    order_book_depth := order_book_depth
    min_spread := min_spread
    max_position_size := max_position_size
    current_position := none
    entry_price := 0
    take_profit_price := 0
    stop_loss_price := 0
    last_signal_time := none
    cooldown_period := 5 }

/-- `ScalpingStrategy._open_position`. -/
def open_position (s : ScalpState) (side : Side) (entry_price : ℚ) : ScalpState :=
  { s with
    current_position := some side
    entry_price := entry_price
    take_profit_price :=
      match side with
      | Side.long => entry_price * (1 + s.profit_target)
      | Side.short => entry_price * (1 - s.profit_target)
    stop_loss_price :=
      match side with
      | Side.long => entry_price * (1 - s.stop_loss)
      | Side.short => entry_price * (1 + s.stop_loss) }

/-- `ScalpingStrategy._close_position`. -/
def close_position (s : ScalpState) : ScalpState :=
  { s with
    current_position := none
    entry_price := 0
    take_profit_price := 0
    stop_loss_price := 0 }

/-- `ScalpingStrategy._manage_existing_position`: take-profit / stop-loss
management against the mid price.  `bids[0][0] if bids else 0` is the head
price with default `0`; the Python truthiness test `if best_bid and
best_ask` is the non-zero test. -/
def manage_existing_position (s : ScalpState) (ob : Option OrderBook) :
    Signal × ScalpState :=
  match ob with
  | none => (Signal.hold, s)
  | some b =>
    let best_bid : ℚ := match b.bids with | [] => 0 | l :: _ => l.1
    let best_ask : ℚ := match b.asks with | [] => 0 | l :: _ => l.1
    let current_price : ℚ :=
      if best_bid ≠ 0 ∧ best_ask ≠ 0 then (best_bid + best_ask) / 2 else 0
    if current_price ≤ 0 then (Signal.hold, s)
    else
      match s.current_position with
      | some Side.long =>
        if current_price ≥ s.take_profit_price then (Signal.sell, close_position s)
        else if current_price ≤ s.stop_loss_price then (Signal.sell, close_position s)
        else (Signal.hold, s)
      | some Side.short =>
        if current_price ≤ s.take_profit_price then (Signal.buy, close_position s)
        else if current_price ≥ s.stop_loss_price then (Signal.buy, close_position s)
        else (Signal.hold, s)
      | none => (Signal.hold, s)

/-- `ScalpingStrategy._analyze_order_book_for_entry`.  When
`order_book_depth = 0` both ladders may be empty yet pass the depth check,
and Python's `order_book['bids'][0]` raises `IndexError`; that uncaught
exception is `Except.error ()`. -/
def analyze_order_book_for_entry (s : ScalpState) (ob : Option OrderBook) :
    Except Unit (Signal × ScalpState) :=
  match ob with
  | none => Except.ok (Signal.hold, s)
  | some b =>
    if b.bids.length < s.order_book_depth ∨ b.asks.length < s.order_book_depth then
      Except.ok (Signal.hold, s)
    else
      match b.bids, b.asks with
      | [], _ => Except.error ()
      | _, [] => Except.error ()
      | bl :: _, al :: _ =>
        let best_bid := bl.1
        let best_ask := al.1
        if best_bid ≤ 0 ∨ best_ask ≤ 0 then Except.ok (Signal.hold, s)
        else
          let spread := best_ask - best_bid
          let spread_percentage := spread / best_bid
          if spread_percentage < s.min_spread then Except.ok (Signal.hold, s)
          else
            let bid_volume := ((b.bids.take s.order_book_depth).map (fun l => l.2)).sum
            let ask_volume := ((b.asks.take s.order_book_depth).map (fun l => l.2)).sum
            if bid_volume > ask_volume * (3 / 2) then
              let entry_price := best_ask - spread * (1 / 10)
              Except.ok (Signal.buy, open_position s Side.long entry_price)
            else if ask_volume > bid_volume * (3 / 2) then
              let entry_price := best_bid + spread * (1 / 10)
              Except.ok (Signal.sell, open_position s Side.short entry_price)
            else Except.ok (Signal.hold, s)

/-- `ScalpingStrategy.generate_signal`: the cooldown gate, then position
management if a position is open, otherwise the entry analysis.  The gate
fires only when both `self.last_signal_time` and `current_time` are set
and their difference in seconds is below `cooldown_period`; note that
`generate_signal` itself never writes `last_signal_time`. -/
def generate_signal (s : ScalpState) (ob : Option OrderBook)
    (current_time : Option ℚ) : Except Unit (Signal × ScalpState) :=
  match s.last_signal_time, current_time with
  | some t0, some t =>
    if t - t0 < s.cooldown_period then Except.ok (Signal.hold, s)
    else
      match s.current_position with
      | some _ => Except.ok (manage_existing_position s ob)
      | none => analyze_order_book_for_entry s ob
  | _, _ =>
    match s.current_position with
    | some _ => Except.ok (manage_existing_position s ob)
    | none => analyze_order_book_for_entry s ob

/-- `BaseStrategy.update_position`: updates the parent-class `position`
field and (on a first `BUY`) overwrites the shared `entry_price`. -/
def base_update_position (s : ScalpState) (signal : Signal) (price : ℚ) :
    ScalpState :=
  if signal = Signal.buy ∧ s.position ≠ Signal.buy then
    { s with position := Signal.buy, entry_price := price }
  else if signal = Signal.sell ∧ s.position ≠ Signal.sell then
    { s with position := Signal.sell }
  else if signal = Signal.hold then
    { s with position := Signal.hold }
  else s

/-- `ScalpingStrategy.update_position`: the parent update followed by
recording the signal time for the cooldown gate.  This is the only place
`last_signal_time` is ever written; the live trading loop
(`scalping_bot.py`) calls it after a signal leads to an executed order. -/
def update_position (s : ScalpState) (signal : Signal) (price : ℚ)
    (timestamp : ℚ) : ScalpState :=
  { base_update_position s signal price with last_signal_time := some timestamp }

/-- One bar of market data (a row of the backtest DataFrame).  `open` is a
Lean keyword, hence `open_price`. -/
structure Bar where
  open_price : ℚ
  high : ℚ
  low : ℚ
  close : ℚ
  volume : ℚ
deriving DecidableEq, Repr

/-- One entry of the backtester's trade ledger; the timestamp is the bar
index (`data.index[i]`). -/
structure Trade where
  timestamp : ℕ
  action : Signal
  price : ℚ
  amount : ℚ
  fee : ℚ
deriving DecidableEq, Repr

/-- The loop state of `Backtester.run_backtest`: `capital`, `position`
(amount of cryptocurrency held), the trade ledger and the equity curve. -/
structure BTState where
  capital : ℚ
  position : ℚ
  trades : List Trade
  equity_curve : List ℚ
deriving DecidableEq, Repr

/-- One iteration of the `for i in range(len(data))` loop in
`Backtester.run_backtest`: the strategy sees the history up to and
including the current bar (`data.iloc[:i+1]`), a `BUY` with a flat
position invests all capital (the computed fee is recorded in the ledger
but not deducted, exactly as in the source; `capital / price` raises
`ZeroDivisionError` on a zero close, modelled as `Except.error ()`), a
`SELL` with a positive position liquidates it net of the fee, and the
equity point `capital + position * price` is appended. -/
def backtest_step (strategy : List Bar → Signal) (commission : ℚ)
    (hist : List Bar) (i : ℕ) (bar : Bar) (st : BTState) :
    Except Unit BTState :=
  let current_price := bar.close
  let signal := strategy (hist ++ [bar])
  let traded : Except Unit BTState :=
    if signal = Signal.buy ∧ st.position = 0 then
      if current_price = 0 then Except.error ()
      else
        let amount := st.capital / current_price
        let fee := amount * current_price * commission
        Except.ok { st with
          position := amount
          capital := 0
          trades := st.trades ++ [⟨i, Signal.buy, current_price, amount, fee⟩] }
    else if signal = Signal.sell ∧ st.position > 0 then
      let amount := st.position
      let fee := amount * current_price * commission
      Except.ok { st with
        capital := amount * current_price - fee
        position := 0
        trades := st.trades ++ [⟨i, Signal.sell, current_price, amount, fee⟩] }
    else Except.ok st
  traded.map (fun st1 =>
    { st1 with equity_curve := st1.equity_curve ++ [st1.capital + st1.position * current_price] })

/-- The backtest loop over the remaining bars, carrying the already-seen
history and the bar index; an exception aborts the run. -/
def backtest_loop (strategy : List Bar → Signal) (commission : ℚ) :
    List Bar → List Bar → ℕ → BTState → Except Unit BTState
  | _, [], _, st => Except.ok st
  | hist, b :: rest, i, st =>
    match backtest_step strategy commission hist i b st with
    | Except.error e => Except.error e
    | Except.ok st2 =>
      backtest_loop strategy commission (hist ++ [b]) rest (i + 1) st2

/-- `max` of a non-empty Python list (`max(equity_curve)`). -/
def list_max : List ℚ → ℚ
  | [] => 0
  | x :: xs => xs.foldl max x

/-- `min` of a non-empty Python list. -/
def list_min : List ℚ → ℚ
  | [] => 0
  | x :: xs => xs.foldl min x

/-- The report assembled at the end of `Backtester.run_backtest`. -/
structure BacktestResults where
  initial_capital : ℚ
  final_equity : ℚ
  total_return : ℚ
  max_drawdown : ℚ
  number_of_trades : ℕ
  equity_curve : List ℚ
  trades : List Trade
  final_capital : ℚ
  final_position : ℚ
deriving DecidableEq, Repr

/-- `Backtester.run_backtest`: run the loop from the initial state, then
compute the summary statistics.  Note that the source computes
`max_equity = max(equity_curve)` — the single global maximum — and
`max_drawdown = min((equity - max_equity) / max_equity for equity in
equity_curve)`: every equity point is compared against the global peak,
not against its own running peak. -/
def run_backtest (strategy : List Bar → Signal) (data : List Bar)
    (initial_capital commission : ℚ) : Except Unit BacktestResults :=
  (backtest_loop strategy commission [] data 0
    ⟨initial_capital, 0, [], []⟩).map (fun final =>
  let curve := final.equity_curve
  let final_equity := match curve.getLast? with
    | some e => e
    | none => initial_capital
  let total_return := (final_equity - initial_capital) / initial_capital
  let max_equity := match curve with
    | [] => initial_capital
    | _ => list_max curve
  let max_drawdown := match curve with
    | [] => 0
    | _ => list_min (curve.map (fun e => (e - max_equity) / max_equity))
  { initial_capital := initial_capital
    final_equity := final_equity
    total_return := total_return
    max_drawdown := max_drawdown
    number_of_trades := final.trades.length
    equity_curve := curve
    trades := final.trades
    final_capital := final.capital
    final_position := final.position })

/-- The drawdown statistic as the design document states it: for each
index the drawdown against the running maximum of the curve so far, then
the minimum over all indices (`0` for the empty curve). -/
def running_drawdowns : ℚ → List ℚ → List ℚ
  | _, [] => []
  | m, e :: rest =>
    let m2 := max m e
    (e - m2) / m2 :: running_drawdowns m2 rest

/-- `max_drawdown` per the design document (running-max formula). -/
def max_drawdown_spec : List ℚ → ℚ
  | [] => 0
  | e :: rest => list_min (running_drawdowns e (e :: rest))

/-- Association-list lookup, modelling a Python dict membership test plus
indexing (`pair in pairs and pairs[pair]`); iteration order of the list is
the dict's insertion order. -/
def alist_find {β : Type} (k : String) : List (String × β) → Option β
  | [] => none
  | (k2, v) :: rest => if k2 = k then some v else alist_find k rest

/-- The orderbooks argument of `detect_discrepancies`: exchange name →
(pair → orderbook), as nested insertion-ordered association lists.  A pair
entry holding a falsy value (`None`, empty dict) is `Option.none`. -/
abbrev Books : Type := List (String × List (String × Option OrderBook))

/-- An arbitrage opportunity as logged by `detect_discrepancies`
(buy = minimum best ask, sell = maximum best bid). -/
structure Opportunity where
  pair : String
  buy_exchange : String
  sell_exchange : String
  buy_price : ℚ
  sell_price : ℚ
  buy_volume : ℚ
  sell_volume : ℚ
  discrepancy : ℚ
  discrepancy_percentage : ℚ
  tradable_volume : ℚ
  potential_profit : ℚ
deriving DecidableEq, Repr

/-- The per-exchange `best_bids` / `bid_volumes` collection for one pair:
exchanges whose orderbook for the pair is present and truthy and has a
non-empty `bids` list contribute `(exchange, bids[0][0], bids[0][1])`. -/
def bid_candidates : Books → String → List (String × ℚ × ℚ)
  | [], _ => []
  | (ex, ps) :: rest, pair =>
    match alist_find pair ps with
    | some (some ob) =>
      match ob.bids with
      | l :: _ => (ex, l.1, l.2) :: bid_candidates rest pair
      | [] => bid_candidates rest pair
    | _ => bid_candidates rest pair

/-- The per-exchange `best_asks` / `ask_volumes` collection for one pair. -/
def ask_candidates : Books → String → List (String × ℚ × ℚ)
  | [], _ => []
  | (ex, ps) :: rest, pair =>
    match alist_find pair ps with
    | some (some ob) =>
      match ob.asks with
      | l :: _ => (ex, l.1, l.2) :: ask_candidates rest pair
      | [] => ask_candidates rest pair
    | _ => ask_candidates rest pair

/-- Left fold for Python's `max(d, key=d.get)`: a later candidate replaces
the current one only when strictly greater, so the first maximum wins. -/
def pick_max_from (cur : String × ℚ × ℚ) :
    List (String × ℚ × ℚ) → String × ℚ × ℚ
  | [] => cur
  | x :: rest => pick_max_from (if x.2.1 > cur.2.1 then x else cur) rest

/-- Python's `max(best_bids, key=best_bids.get)` over an insertion-ordered
candidate list (`none` when the dict is empty). -/
def pick_max (l : List (String × ℚ × ℚ)) : Option (String × ℚ × ℚ) :=
  match l with
  | [] => none
  | c :: rest => some (pick_max_from c rest)

/-- Left fold for Python's `min(d, key=d.get)`: replace only when strictly
smaller, so the first minimum wins. -/
def pick_min_from (cur : String × ℚ × ℚ) :
    List (String × ℚ × ℚ) → String × ℚ × ℚ
  | [] => cur
  | x :: rest => pick_min_from (if x.2.1 < cur.2.1 then x else cur) rest

/-- Python's `min(best_asks, key=best_asks.get)`. -/
def pick_min (l : List (String × ℚ × ℚ)) : Option (String × ℚ × ℚ) :=
  match l with
  | [] => none
  | c :: rest => some (pick_min_from c rest)

/-- The body of the per-pair loop of `detect_discrepancies`.  The guard is
the source's `if (max_bid_exchange and min_ask_exchange and max_bid_price
> 0 and min_ask_price < float('inf') and max_bid_exchange !=
min_ask_exchange)`: missing candidates are the `none` cases of the match
(`max_bid_price = 0` default, `min_ask_price = inf` default).  Inside the
guard the source computes `discrepancy / min_ask_price` with no check that
`min_ask_price` is non-zero: a zero minimum ask raises
`ZeroDivisionError`, modelled as `Except.error ()`.  An alert is produced
exactly when `discrepancy_percentage >= threshold_percentage`. -/
def detect_pair (books : Books) (pair : String) (threshold_percentage : ℚ) :
    Except Unit (Option Opportunity) :=
  match pick_max (bid_candidates books pair), pick_min (ask_candidates books pair) with
  | some (max_bid_exchange, max_bid_price, max_bid_volume),
    some (min_ask_exchange, min_ask_price, min_ask_volume) =>
    if max_bid_price > 0 ∧ max_bid_exchange ≠ min_ask_exchange then
      if min_ask_price = 0 then Except.error ()
      else
        let discrepancy := max_bid_price - min_ask_price
        let discrepancy_percentage := discrepancy / min_ask_price * 100
        if discrepancy_percentage ≥ threshold_percentage then
          let tradable_volume := min max_bid_volume min_ask_volume
          Except.ok (some
            { pair := pair
              buy_exchange := min_ask_exchange
              sell_exchange := max_bid_exchange
              buy_price := min_ask_price
              sell_price := max_bid_price
              buy_volume := min_ask_volume
              sell_volume := max_bid_volume
              discrepancy := discrepancy
              discrepancy_percentage := discrepancy_percentage
              tradable_volume := tradable_volume
              potential_profit := discrepancy * tradable_volume })
        else Except.ok none
    else Except.ok none
  | _, _ => Except.ok none

/-- The `for pair in orderbooks[first_exchange].keys()` loop: each pair is
examined in turn; an uncaught exception aborts the whole call. -/
def detect_pairs_loop (books : Books) (threshold_percentage : ℚ) :
    List String → Except Unit (List (String × Option Opportunity))
  | [] => Except.ok []
  | pair :: rest =>
    match detect_pair books pair threshold_percentage with
    | Except.error e => Except.error e
    | Except.ok o =>
      match detect_pairs_loop books threshold_percentage rest with
      | Except.error e => Except.error e
      | Except.ok l => Except.ok ((pair, o) :: l)

/-- `detect_discrepancies(orderbooks, threshold_percentage)`: nothing to do
on an empty map, otherwise loop over the pairs of the **first** exchange
only (its value list yields the keys in insertion order; an empty first
map means an empty loop, matching the source's early return).  The result
collects, per examined pair, the opportunity the source would log. -/
def detect_discrepancies (books : Books) (threshold_percentage : ℚ) :
    Except Unit (List (String × Option Opportunity)) :=
  match books with
  | [] => Except.ok []
  | (_, ps1) :: _ =>
    detect_pairs_loop books threshold_percentage (ps1.map Prod.fst)

/-- Modelled from the spec: `calculate_weighted_price` is imported by
`tests/test_discrepancy_detection.py` from `main`, but no definition of it
exists anywhere in the repository sources; this is the cost walk of spec
§4.1 — consume levels best-first, each contributing
`min(remaining_target, level.volume)` units at the level's price. -/
def fill_cost : List (ℚ × ℚ) → ℚ → ℚ
  | [], _ => 0
  | (price, volume) :: rest, remaining =>
    if remaining ≤ 0 then 0
    else
      let filled := min remaining volume
      filled * price + fill_cost rest (remaining - filled)

/-- Modelled from the spec: `calculate_weighted_price(orders,
target_volume)` (spec §4.1), absent from the sources.  Returns no price
when the ladder is empty, the target volume is non-positive, or the total
ladder volume is strictly below the target; otherwise the volume-weighted
average execution price `cost / target_volume`. -/
def calculate_weighted_price (orders : List (ℚ × ℚ)) (target_volume : ℚ) :
    Option ℚ :=
  if orders = [] ∨ target_volume ≤ 0 ∨
      ((orders.map (fun l => l.2)).sum < target_volume) then none
  else some (fill_cost orders target_volume / target_volume)

/-! Concrete inputs used by the witnesses and counterexamples below. -/

/-- A bar whose every price column is `c`. -/
def mk_bar (c : ℚ) : Bar := ⟨c, c, c, c, 1⟩

/-- A strategy that buys on the first bar and then holds forever. -/
def buy_once : List Bar → Signal :=
  fun h => if h.length = 1 then Signal.buy else Signal.hold

/-- A strategy that buys on the first bar, sells on the second, then holds. -/
def buy_then_sell : List Bar → Signal :=
  fun h =>
    if h.length = 1 then Signal.buy
    else if h.length = 2 then Signal.sell
    else Signal.hold

/-- Snapshot map in which `okx` quotes a best ask of `0` while `binance`
has the maximum best bid: the detector's division by the minimum ask
divides by zero. -/
def books_zero_ask : Books :=
  [("binance", [("XAU/USDT", some ⟨[(1, 1)], [(5, 1)]⟩)]),
   ("okx", [("XAU/USDT", some ⟨[(1/2, 1)], [(0, 1)]⟩)])]

/-- Snapshot map where the maximum best bid (100 on `A`) equals the
minimum best ask (100 on `B`): zero edge. -/
def books_equal_edge : Books :=
  [("A", [("X", some ⟨[(100, 1)], [(200, 1)]⟩)]),
   ("B", [("X", some ⟨[(50, 1)], [(100, 1)]⟩)])]

/-- The opportunity the detector emits on `books_equal_edge` at threshold
`0`: its sell price does not exceed its buy price. -/
def opp_equal_edge : Opportunity :=
  { pair := "X", buy_exchange := "B", sell_exchange := "A"
    buy_price := 100, sell_price := 100, buy_volume := 1, sell_volume := 1
    discrepancy := 0, discrepancy_percentage := 0
    tradable_volume := 1, potential_profit := 0 }

/-- Snapshot map with a crossed book on `A` (bid 105 above ask 100): `A`
holds both the maximum best bid and the minimum best ask, while `B`
contributes candidates on both sides. -/
def books_crossed : Books :=
  [("A", [("X", some ⟨[(105, 1)], [(100, 1)]⟩)]),
   ("B", [("X", some ⟨[(90, 1)], [(200, 1)]⟩)])]

/-- The snapshot map of the repository's own unit test
(`test_detect_discrepancies_with_opportunity`): buy on `okx` at 100, sell
on `binance` at 102. -/
def books_test : Books :=
  [("binance", [("SOL/USDT", some ⟨[(102, 1)], [(101, 2)]⟩)]),
   ("okx", [("SOL/USDT", some ⟨[(99, 3)], [(100, 4)]⟩)])]

/-- The opportunity emitted on `books_test` at threshold `1`. -/
def opp_test : Opportunity :=
  { pair := "SOL/USDT", buy_exchange := "okx", sell_exchange := "binance"
    buy_price := 100, sell_price := 102, buy_volume := 4, sell_volume := 1
    discrepancy := 2, discrepancy_percentage := 2
    tradable_volume := 1, potential_profit := 2 }

/-- The first exchange's pair map in `books_extra_pair`. -/
def extra_pair_ps1 : List (String × Option OrderBook) :=
  [("BTC/USDT", some ⟨[(100, 1)], [(101, 1)]⟩)]

/-- The remaining exchanges in `books_extra_pair`: `okx` also quotes
`ETH/USDT`, which the first exchange does not. -/
def extra_pair_rest : Books :=
  [("okx", [("BTC/USDT", some ⟨[(99, 1)], [(102, 1)]⟩),
            ("ETH/USDT", some ⟨[(10, 1)], [(11, 1)]⟩)])]

/-- Snapshot map whose second exchange quotes a pair (`ETH/USDT`) that the
first exchange does not. -/
def books_extra_pair : Books :=
  ("binance", extra_pair_ps1) :: extra_pair_rest

/-- A `ScalpingStrategy` with the constructor's default parameters
(`profit_target=0.001`, `stop_loss=0.0005`, `order_book_depth=10`,
`min_spread=0.0001`, `max_position_size=0.01`). -/
def scalp_default : ScalpState :=
  scalping_init "BTC/USDT" (1/1000) (1/2000) 10 (1/10000) (1/100)

/-- A ten-level book with strong buying pressure (bid volume 30 vs ask
volume 10): triggers a Long entry at `101 - 1/10`. -/
def entry_book : Option OrderBook :=
  some ⟨List.replicate 10 (100, 3), List.replicate 10 (101, 1)⟩

/-- The state after `scalp_default` opens its Long at `1009/10`. -/
def scalp_opened : ScalpState :=
  open_position scalp_default Side.long (1009/10)

/-- A book whose mid price 102 is above the open Long's take-profit. -/
def tp_book : Option OrderBook := some ⟨[(102, 1)], [(102, 1)]⟩

/-- Default-parameter strategy except `order_book_depth = 1`. -/
def scalp_depth1 : ScalpState :=
  scalping_init "BTC/USDT" (1/1000) (1/2000) 1 (1/10000) (1/100)

/-- A one-level book with buying pressure, for the depth-1 strategy. -/
def entry_book1 : Option OrderBook := some ⟨[(100, 3)], [(101, 1)]⟩

/-- The state after `scalp_depth1` opens its Long at `1009/10`. -/
def scalp_opened1 : ScalpState :=
  open_position scalp_depth1 Side.long (1009/10)

deriving instance DecidableEq for Except

/-! Theorems. -/

/-- Claim C1: the claim says `max_drawdown` equals the running-max drawdown
formula and is `0` on a monotonically non-decreasing equity curve.  The
code instead measures every equity point against the single global peak
`max(equity_curve)`: a backtest producing the non-decreasing curve
`[100, 200]` (buy the whole capital at close 1, hold while the close rises
to 2) reports `max_drawdown = -1/2`, whereas the claimed running-max
formula yields `0`. -/
theorem backtest_drawdown_global_peak :
    (run_backtest buy_once [mk_bar 1, mk_bar 2] 100 0).map
        (fun r => r.equity_curve) = Except.ok [100, 200] ∧
    List.Chain' (fun a b => a ≤ b) [(100 : ℚ), 200] ∧
    (run_backtest buy_once [mk_bar 1, mk_bar 2] 100 0).map
        (fun r => r.max_drawdown) = Except.ok (-1/2) ∧
    max_drawdown_spec [100, 200] = 0 ∧
    (-1/2 : ℚ) ≠ 0 := by
  refine ⟨?_, ?_, ?_, ?_, by norm_num⟩ <;>
    simp [run_backtest, backtest_loop, backtest_step, buy_once, mk_bar,
      list_min, list_max, max_drawdown_spec, running_drawdowns, Except.map,
      List.chain'_cons, List.chain'_singleton] <;>
    norm_num

/-- Claim C4: a snapshot map whose minimum best-ask price is zero.  The
guard `min_ask_price < float('inf')` admits a zero ask, and
`discrepancy / min_ask_price` then raises `ZeroDivisionError` (modelled as
`Except.error ()`) instead of yielding the no-opportunity outcome the
claim requires. -/
theorem zero_min_ask_division_raises :
    pick_min (ask_candidates books_zero_ask "XAU/USDT") = some ("okx", 0, 1) ∧
    detect_discrepancies books_zero_ask 1 = Except.error () := by
  refine ⟨?_, ?_⟩ <;>
    simp [detect_discrepancies, detect_pairs_loop, detect_pair, books_zero_ask,
      bid_candidates, ask_candidates, alist_find, pick_min, pick_min_from,
      pick_max, pick_max_from] <;>
    norm_num <;> decide

/-- Claim C9: the claim says invalid strategy parameters such as
`stop_loss <= 0` are rejected eagerly at construction.  The constructor
performs no validation at all: it accepts `stop_loss = -1/100`, stores it,
and a later Long open at entry 100 silently sets a stop-loss price of 101
**above** the entry price. -/
theorem scalping_init_no_validation :
    (scalping_init "BTC/USDT" (1/1000) (-1/100) 10 (1/10000) (1/100)).stop_loss
        = -1/100 ∧
    (open_position (scalping_init "BTC/USDT" (1/1000) (-1/100) 10 (1/10000) (1/100))
        Side.long 100).stop_loss_price = 101 ∧
    (101 : ℚ) > 100 := by
  refine ⟨?_, ?_, by norm_num⟩ <;> simp [scalping_init, open_position] <;> norm_num

/-- Claim C5 counterexample: at `threshold_percent = 0` the detector emits
an opportunity whose sell price equals its buy price — the alert condition
is `discrepancy_percentage >= threshold`, with no strict
`sell_price > buy_price` check, so the claim fails as stated for
non-positive thresholds. -/
theorem detector_alert_without_strict_edge :
    detect_discrepancies books_equal_edge 0 =
        Except.ok [("X", some opp_equal_edge)] ∧
    opp_equal_edge.sell_price ≤ opp_equal_edge.buy_price := by
  constructor
  · simp [detect_discrepancies, detect_pairs_loop, detect_pair, books_equal_edge,
      bid_candidates, ask_candidates, alist_find, pick_min, pick_min_from,
      pick_max, pick_max_from, opp_equal_edge]
    norm_num
    rw [if_neg (by decide : ¬ ("A" : String) = "B")]
  · simp [opp_equal_edge]

/-- Claim C6 counterexample: on `books_crossed` both exchanges contribute
bid and ask candidates and the edge percent `(105-100)/100*100 = 5` is
above the threshold `1`, yet the maximum-bid exchange and the minimum-ask
exchange are both `A`, so the detector reports nothing: the claimed
"reports an opportunity exactly when edge_percent ≥ threshold" is false
without a distinct-exchange proviso. -/
theorem detector_coincident_extremes_no_alert :
    bid_candidates books_crossed "X" = [("A", 105, 1), ("B", 90, 1)] ∧
    ask_candidates books_crossed "X" = [("A", 100, 1), ("B", 200, 1)] ∧
    pick_max (bid_candidates books_crossed "X") = some ("A", 105, 1) ∧
    pick_min (ask_candidates books_crossed "X") = some ("A", 100, 1) ∧
    ((105 - 100 : ℚ) / 100 * 100 ≥ 1) ∧
    detect_discrepancies books_crossed 1 = Except.ok [("X", none)] := by
  refine ⟨?_, ?_, ?_, ?_, by norm_num, ?_⟩ <;>
    simp [detect_discrepancies, detect_pairs_loop, detect_pair, books_crossed,
      bid_candidates, ask_candidates, alist_find, pick_min, pick_min_from,
      pick_max, pick_max_from] <;>
    norm_num <;> decide

/-- Claim C7 counterexample: with a negative initial capital `-1` the Buy
invests it into a negative position, the Sell is then a no-op (it requires
`position > 0`), and the final capital is `0`, not `-1` — the round-trip
conservation claim fails for negative initial capital. -/
theorem negative_capital_breaks_round_trip :
    buy_then_sell [mk_bar 1] = Signal.buy ∧
    buy_then_sell [mk_bar 1, mk_bar 1] = Signal.sell ∧
    (backtest_loop buy_then_sell 0 [] [mk_bar 1, mk_bar 1] 0
        ⟨-1, 0, [], []⟩).map (fun st => st.capital) = Except.ok 0 ∧
    (0 : ℚ) ≠ -1 := by
  refine ⟨?_, ?_, ?_, by norm_num⟩ <;>
    simp [backtest_loop, backtest_step, buy_then_sell, mk_bar, Except.map] <;>
    norm_num

/-- Claim C3 counterexample: `generate_signal` never records the signal
time itself (`last_signal_time` is written only by `update_position`,
which the caller must invoke).  A fresh default strategy emits `Buy` at
`t = 0`, and one second later — well inside the five-second
`cooldown_period` — the second `generate_signal` call emits `Sell`
(take-profit hit), not `Hold`. -/
theorem cooldown_not_self_recorded :
    generate_signal scalp_default entry_book (some 0) =
        Except.ok (Signal.buy, scalp_opened) ∧
    (1 : ℚ) - 0 < scalp_default.cooldown_period ∧
    generate_signal scalp_opened tp_book (some 1) =
        Except.ok (Signal.sell, close_position scalp_opened) ∧
    Signal.sell ≠ Signal.hold := by
  refine ⟨?_, ?_, ?_, by decide⟩ <;>
    simp [generate_signal, analyze_order_book_for_entry,
      manage_existing_position, open_position, close_position, scalp_default,
      scalp_opened, scalping_init, entry_book, tp_book, List.replicate] <;>
    norm_num

/-- Claim C2: `calculate_weighted_price` returns no price exactly when the
ladder is empty, the target volume is non-positive, or total ladder volume
is strictly below the target; otherwise it returns `cost / target_volume`
for the best-first walk cost, matching the spec's worked example
`fill(2.0) = 100.5` on the ladder `[(100,1),(101,1),(102,1)]` (the
function itself is absent from the sources and is modelled from the
spec). -/
theorem calculate_weighted_price_correct (orders : List (ℚ × ℚ))
    (target_volume : ℚ) :
    (calculate_weighted_price orders target_volume = none ↔
      orders = [] ∨ target_volume ≤ 0 ∨
        ((orders.map (fun l => l.2)).sum < target_volume)) ∧
    (¬(orders = [] ∨ target_volume ≤ 0 ∨
        ((orders.map (fun l => l.2)).sum < target_volume)) →
      calculate_weighted_price orders target_volume =
        some (fill_cost orders target_volume / target_volume)) ∧
    calculate_weighted_price [(100, 1), (101, 1), (102, 1)] 2 = some (201/2) ∧
    calculate_weighted_price [(100, 1), (101, 1), (102, 1)] (3/2) = some (301/3) ∧
    calculate_weighted_price [(100, 1), (101, 1)] 3 = none ∧
    calculate_weighted_price [] 1 = none ∧
    calculate_weighted_price [(100, 1)] 0 = none ∧
    calculate_weighted_price [(100, 1)] (-1) = none := by
  refine ⟨?_, ?_, ?_, ?_, ?_, ?_, ?_, ?_⟩
  · unfold calculate_weighted_price
    split_ifs with h
    · simp [h]
    · simp [h]
  · intro h
    unfold calculate_weighted_price
    rw [if_neg h]
  all_goals simp [calculate_weighted_price, fill_cost] <;> norm_num

/-- Witness for C2: the success branch applied at the spec's `fill(1.5)`
example. -/
theorem calculate_weighted_price_correct_witness :
    calculate_weighted_price [(100, 1), (101, 1), (102, 1)] (3/2) =
      some (fill_cost [(100, 1), (101, 1), (102, 1)] (3/2) / (3/2)) :=
  (calculate_weighted_price_correct [(100, 1), (101, 1), (102, 1)] (3/2)).2.1
    (by push_neg; refine ⟨by simp, by norm_num, by norm_num⟩)

/-- The cooldown gate of `generate_signal`: with a recorded signal time
within `cooldown_period` of the call time, the call returns `Hold` and
leaves the state untouched. -/
theorem generate_signal_cooldown (s : ScalpState) (t0 t : ℚ)
    (ob : Option OrderBook) (hl : s.last_signal_time = some t0)
    (h : t - t0 < s.cooldown_period) :
    generate_signal s ob (some t) = Except.ok (Signal.hold, s) := by
  unfold generate_signal
  rw [hl]
  simp [h]

/-- Claim C3 (amended): two `generate_signal` calls less than
`cooldown_period` apart yield `Hold` on the second call **provided** the
caller recorded the first call's signal through `update_position` (as the
live trading loop does when the order is placed); `generate_signal` alone
never records the time. -/
theorem cooldown_after_update (s : ScalpState) (sig : Signal)
    (price t1 t2 : ℚ) (ob : Option OrderBook)
    (h : t2 - t1 < s.cooldown_period) :
    generate_signal (update_position s sig price t1) ob (some t2) =
      Except.ok (Signal.hold, update_position s sig price t1) := by
  have hcool : (update_position s sig price t1).cooldown_period =
      s.cooldown_period := by
    unfold update_position base_update_position
    split_ifs <;> rfl
  have hlast : (update_position s sig price t1).last_signal_time = some t1 := by
    unfold update_position
    rfl
  exact generate_signal_cooldown _ t1 t2 ob hlast (by rw [hcool]; exact h)

/-- Witness for C3 (amended): the default strategy, first signal recorded
at `t = 0`, second call at `t = 1` (inside the 5-second cooldown). -/
theorem cooldown_after_update_witness :
    generate_signal (update_position scalp_default Signal.buy 100 0)
        entry_book (some 1) =
      Except.ok (Signal.hold, update_position scalp_default Signal.buy 100 0) :=
  cooldown_after_update scalp_default Signal.buy 100 0 1 entry_book
    (by simp [scalp_default, scalping_init])

/-- A fold step never lowers the running best: the seed's price bounds. -/
theorem pick_max_from_le_self (l : List (String × ℚ × ℚ)) :
    ∀ cur : String × ℚ × ℚ, cur.2.1 ≤ (pick_max_from cur l).2.1 := by
  induction l with
  | nil => intro cur; simp [pick_max_from]
  | cons a t ih =>
    intro cur
    rw [pick_max_from]
    by_cases hc : a.2.1 > cur.2.1
    · rw [if_pos hc]
      exact le_trans (le_of_lt hc) (ih a)
    · rw [if_neg hc]
      exact ih cur

/-- Every scanned candidate's price is bounded by the fold's result. -/
theorem pick_max_from_mem_le (l : List (String × ℚ × ℚ)) :
    ∀ cur : String × ℚ × ℚ, ∀ x ∈ l, x.2.1 ≤ (pick_max_from cur l).2.1 := by
  induction l with
  | nil => intro cur x hx; simp at hx
  | cons a t ih =>
    intro cur x hx
    rw [pick_max_from]
    rcases List.mem_cons.mp hx with rfl | hx
    · by_cases hc : x.2.1 > cur.2.1
      · rw [if_pos hc]
        exact pick_max_from_le_self t x
      · rw [if_neg hc]
        exact le_trans (not_lt.mp hc) (pick_max_from_le_self t cur)
    · exact ih _ x hx

/-- `pick_max` returns a price at least every candidate's price. -/
theorem pick_max_ge (l : List (String × ℚ × ℚ)) (c : String × ℚ × ℚ)
    (h : pick_max l = some c) : ∀ x ∈ l, x.2.1 ≤ c.2.1 := by
  cases l with
  | nil => simp [pick_max] at h
  | cons a t =>
    simp only [pick_max, Option.some.injEq] at h
    intro x hx
    rcases List.mem_cons.mp hx with rfl | hx
    · exact h ▸ pick_max_from_le_self t x
    · exact h ▸ pick_max_from_mem_le t a x hx

/-- Dual of `pick_max_from_le_self`. -/
theorem pick_min_from_le_self (l : List (String × ℚ × ℚ)) :
    ∀ cur : String × ℚ × ℚ, (pick_min_from cur l).2.1 ≤ cur.2.1 := by
  induction l with
  | nil => intro cur; simp [pick_min_from]
  | cons a t ih =>
    intro cur
    rw [pick_min_from]
    by_cases hc : a.2.1 < cur.2.1
    · rw [if_pos hc]
      exact le_trans (ih a) (le_of_lt hc)
    · rw [if_neg hc]
      exact ih cur

/-- Dual of `pick_max_from_mem_le`. -/
theorem pick_min_from_mem_le (l : List (String × ℚ × ℚ)) :
    ∀ cur : String × ℚ × ℚ, ∀ x ∈ l, (pick_min_from cur l).2.1 ≤ x.2.1 := by
  induction l with
  | nil => intro cur x hx; simp at hx
  | cons a t ih =>
    intro cur x hx
    rw [pick_min_from]
    rcases List.mem_cons.mp hx with rfl | hx
    · by_cases hc : x.2.1 < cur.2.1
      · rw [if_pos hc]
        exact pick_min_from_le_self t x
      · rw [if_neg hc]
        exact le_trans (pick_min_from_le_self t cur) (not_lt.mp hc)
    · exact ih _ x hx

/-- `pick_min` returns a price at most every candidate's price. -/
theorem pick_min_le (l : List (String × ℚ × ℚ)) (c : String × ℚ × ℚ)
    (h : pick_min l = some c) : ∀ x ∈ l, c.2.1 ≤ x.2.1 := by
  cases l with
  | nil => simp [pick_min] at h
  | cons a t =>
    simp only [pick_min, Option.some.injEq] at h
    intro x hx
    rcases List.mem_cons.mp hx with rfl | hx
    · exact h ▸ pick_min_from_le_self t x
    · exact h ▸ pick_min_from_mem_le t a x hx

/-- Claim C5 (amended): for every strictly positive threshold, any emitted
opportunity has a strictly positive buy price and `buy_price < sell_price`
strictly; and for **any** threshold, an emitted opportunity always has
distinct buy and sell exchanges, coincident extremal selections yield no
opportunity, and missing bid or ask candidates yield no opportunity.
(For `threshold_percent ≤ 0` the strict-edge part fails: see the
counterexample.) -/
theorem detect_pair_strict_edge (books : Books) (pair : String)
    (threshold : ℚ) :
    (0 < threshold →
      ∀ o : Opportunity, detect_pair books pair threshold = Except.ok (some o) →
        0 < o.buy_price ∧ o.buy_price < o.sell_price ∧
          o.buy_exchange ≠ o.sell_exchange) ∧
    (∀ o : Opportunity, detect_pair books pair threshold = Except.ok (some o) →
      o.buy_exchange ≠ o.sell_exchange) ∧
    (∀ (se be : String) (sp sv bp bv : ℚ),
      pick_max (bid_candidates books pair) = some (se, sp, sv) →
      pick_min (ask_candidates books pair) = some (be, bp, bv) →
      se = be → detect_pair books pair threshold = Except.ok none) ∧
    (bid_candidates books pair = [] ∨ ask_candidates books pair = [] →
      detect_pair books pair threshold = Except.ok none) := by
  refine ⟨?_, ?_, ?_, ?_⟩
  · intro hthr o ho
    unfold detect_pair at ho
    rcases hmax : pick_max (bid_candidates books pair) with _ | ⟨se, sp, sv⟩ <;>
      rcases hmin : pick_min (ask_candidates books pair) with _ | ⟨be, bp, bv⟩ <;>
      rw [hmax, hmin] at ho
    · simp at ho
    · simp at ho
    · simp at ho
    · dsimp only at ho
      split_ifs at ho with h1 h2 h3
      all_goals simp at ho
      subst ho
      have h100 : 0 < (sp - bp) / bp * 100 := lt_of_lt_of_le hthr h3
      have hdiv : 0 < (sp - bp) / bp := by linarith
      rcases div_pos_iff.mp hdiv with ⟨ha, hb⟩ | ⟨ha, hb⟩
      · refine ⟨hb, ?_, ?_⟩
        · show bp < sp
          linarith
        · show ¬ be = se
          intro hcontra
          exact h1.2 hcontra.symm
      · exact absurd h1.1 (by simp only [not_lt]; linarith)
  · intro o ho
    unfold detect_pair at ho
    rcases hmax : pick_max (bid_candidates books pair) with _ | ⟨se, sp, sv⟩ <;>
      rcases hmin : pick_min (ask_candidates books pair) with _ | ⟨be, bp, bv⟩ <;>
      rw [hmax, hmin] at ho
    · simp at ho
    · simp at ho
    · simp at ho
    · dsimp only at ho
      split_ifs at ho with h1 h2 h3
      all_goals simp at ho
      subst ho
      show ¬ be = se
      intro hcontra
      exact h1.2 hcontra.symm
  · intro se be sp sv bp bv hmax hmin heq
    unfold detect_pair
    rw [hmax, hmin]
    dsimp only
    rw [if_neg (fun hand => hand.2 heq)]
  · intro hc
    rcases hc with hc | hc
    · rcases hmin : pick_min (ask_candidates books pair) with _ | c2 <;>
        simp [detect_pair, hc, pick_max, hmin]
    · rcases hmax : pick_max (bid_candidates books pair) with _ | c2 <;>
        simp [detect_pair, hc, pick_min, hmax]

/-- Witness for C5 (amended): the repository test's snapshot map at
threshold `1` emits `opp_test`, whose buy price 100 is positive and below
its sell price 102 on a distinct exchange. -/
theorem detect_pair_strict_edge_witness :
    0 < opp_test.buy_price ∧ opp_test.buy_price < opp_test.sell_price ∧
      opp_test.buy_exchange ≠ opp_test.sell_exchange :=
  (detect_pair_strict_edge books_test "SOL/USDT" 1).1 (by norm_num) opp_test
    (by
      simp [detect_pair, books_test, bid_candidates, ask_candidates, alist_find,
        pick_max, pick_max_from, pick_min, pick_min_from, opp_test]
      norm_num [show ("binance" : String) ≠ "okx" from by decide])

/-- Claim C6 (amended): when the maximum-best-bid and minimum-best-ask
selections exist, lie on **distinct** exchanges and both prices are
positive, the detector reports an opportunity exactly when
`edge_percent = (sell - buy) / buy * 100` is not below the threshold, with
the claimed selection (extremal prices over all candidates), volumes and
profit; without the distinct-exchange and positive-price provisos the
claim fails (see the counterexample). -/
theorem detect_pair_characterization (books : Books) (pair : String)
    (threshold : ℚ) (se be : String) (sp sv bp bv : ℚ)
    (hmax : pick_max (bid_candidates books pair) = some (se, sp, sv))
    (hmin : pick_min (ask_candidates books pair) = some (be, bp, bv))
    (hne : se ≠ be) (hsp : 0 < sp) (hbp : 0 < bp) :
    (∀ x ∈ bid_candidates books pair, x.2.1 ≤ sp) ∧
    (∀ x ∈ ask_candidates books pair, bp ≤ x.2.1) ∧
    ((sp - bp) / bp * 100 ≥ threshold →
      detect_pair books pair threshold = Except.ok (some
        { pair := pair, buy_exchange := be, sell_exchange := se
          buy_price := bp, sell_price := sp, buy_volume := bv, sell_volume := sv
          discrepancy := sp - bp
          discrepancy_percentage := (sp - bp) / bp * 100
          tradable_volume := min sv bv
          potential_profit := (sp - bp) * min sv bv })) ∧
    ((sp - bp) / bp * 100 < threshold →
      detect_pair books pair threshold = Except.ok none) := by
  refine ⟨?_, ?_, ?_, ?_⟩
  · intro x hx
    exact pick_max_ge _ _ hmax x hx
  · intro x hx
    exact pick_min_le _ _ hmin x hx
  · intro h
    unfold detect_pair
    rw [hmax, hmin]
    dsimp only
    rw [if_pos ⟨hsp, hne⟩, if_neg hbp.ne', if_pos h]
  · intro h
    unfold detect_pair
    rw [hmax, hmin]
    dsimp only
    rw [if_pos ⟨hsp, hne⟩, if_neg hbp.ne', if_neg (not_le.mpr h)]

/-- Witness for C6 (amended): on the repository test's snapshot map with
threshold `1`, sell = binance bid 102, buy = okx ask 100, edge 2% — the
opportunity is emitted with exactly the claimed fields. -/
theorem detect_pair_characterization_witness :
    detect_pair books_test "SOL/USDT" 1 = Except.ok (some
      { pair := "SOL/USDT", buy_exchange := "okx", sell_exchange := "binance"
        buy_price := 100, sell_price := 102, buy_volume := 4, sell_volume := 1
        discrepancy := 102 - 100
        discrepancy_percentage := (102 - 100) / 100 * 100
        tradable_volume := min 1 4
        potential_profit := (102 - 100) * min 1 4 }) :=
  (detect_pair_characterization books_test "SOL/USDT" 1 "binance" "okx" 102 1 100 4
    (by
      simp [books_test, bid_candidates, alist_find, pick_max, pick_max_from]
      norm_num)
    (by
      simp [books_test, ask_candidates, alist_find, pick_min, pick_min_from]
      norm_num)
    (by decide) (by norm_num) (by norm_num)).2.2.1 (by norm_num)

/-- The per-pair loop examines exactly the pairs handed to it, in order. -/
theorem detect_pairs_loop_keys (books : Books) (thr : ℚ) :
    ∀ (pairs : List String) (l : List (String × Option Opportunity)),
      detect_pairs_loop books thr pairs = Except.ok l →
      l.map Prod.fst = pairs := by
  intro pairs
  induction pairs with
  | nil =>
    intro l h
    simp [detect_pairs_loop] at h
    simp [← h]
  | cons p rest ih =>
    intro l h
    unfold detect_pairs_loop at h
    cases hd : detect_pair books p thr with
    | error e =>
      rw [hd] at h
      simp at h
    | ok o =>
      rw [hd] at h
      cases hrest : detect_pairs_loop books thr rest with
      | error e =>
        rw [hrest] at h
        simp at h
      | ok l2 =>
        rw [hrest] at h
        simp at h
        rw [← h]
        simp [ih l2 hrest]

/-- Claim C10: the detector loops only over the pairs of the first
exchange's map, in its stable key order: the examined pairs are exactly
that key list, so a pair missing from the first exchange's map is never
evaluated in the cycle. -/
theorem detector_first_exchange_pairs (books : Books) (thr : ℚ)
    (ex1 : String) (ps1 : List (String × Option OrderBook)) (rest : Books)
    (l : List (String × Option Opportunity))
    (hbooks : books = (ex1, ps1) :: rest)
    (hok : detect_discrepancies books thr = Except.ok l) :
    l.map Prod.fst = ps1.map Prod.fst ∧
    ∀ pair : String, pair ∉ ps1.map Prod.fst → pair ∉ l.map Prod.fst := by
  subst hbooks
  unfold detect_discrepancies at hok
  have h := detect_pairs_loop_keys _ thr (ps1.map Prod.fst) l hok
  refine ⟨h, ?_⟩
  intro pair hnp
  rw [h]
  exact hnp

/-- Witness for C10: on `books_extra_pair` the examined pairs are exactly
`binance`'s keys (only `BTC/USDT`), although `okx` also quotes
`ETH/USDT`. -/
theorem detector_first_exchange_pairs_witness :
    ([("BTC/USDT", (none : Option Opportunity))].map Prod.fst) =
      extra_pair_ps1.map Prod.fst :=
  (detector_first_exchange_pairs books_extra_pair 1 "binance" extra_pair_ps1
    extra_pair_rest [("BTC/USDT", none)] rfl
    (by
      simp [detect_discrepancies, detect_pairs_loop, detect_pair,
        books_extra_pair, extra_pair_ps1, extra_pair_rest, bid_candidates,
        ask_candidates, alist_find, pick_max, pick_max_from, pick_min,
        pick_min_from]
      norm_num)).1

/-- The entry analysis opens a Long only with `0 < entry` and, for positive
`profit_target` and `stop_loss`, thresholds strictly bracketing the
entry. -/
theorem analyze_long_entry (s s2 : ScalpState) (ob : Option OrderBook)
    (hpt : 0 < s.profit_target) (hsl : 0 < s.stop_loss)
    (h : analyze_order_book_for_entry s ob = Except.ok (Signal.buy, s2)) :
    0 < s2.entry_price ∧ s2.take_profit_price > s2.entry_price ∧
      s2.entry_price > s2.stop_loss_price := by
  unfold analyze_order_book_for_entry at h
  cases ob with
  | none => simp at h
  | some b =>
    dsimp only at h
    by_cases hlen : b.bids.length < s.order_book_depth ∨
        b.asks.length < s.order_book_depth
    · rw [if_pos hlen] at h
      simp at h
    rw [if_neg hlen] at h
    rcases hb : b.bids with _ | ⟨bl, bt⟩ <;> rcases ha : b.asks with _ | ⟨al, arest⟩ <;>
      rw [hb, ha] at h <;> dsimp only at h
    · simp at h
    · simp at h
    · simp at h
    · split_ifs at h with h1 h2 h3 h4
      all_goals simp at h
      subst h
      push_neg at h1
      have he : 0 < al.1 - (al.1 - bl.1) * (1/10) := by
        have hb1 : 0 < bl.1 := h1.1
        have ha1 : 0 < al.1 := h1.2
        linarith
      simp only [open_position]
      refine ⟨by linarith, ?_, ?_⟩
      · nlinarith [mul_pos he hpt]
      · nlinarith [mul_pos he hsl]

/-- Claim C8: every Long position the engine opens from a flat state with
positive `profit_target` and `stop_loss` has
`take_profit_price > entry_price > stop_loss_price` (the entry price is
positive because both best prices are), so no mark price can be
simultaneously at or above the take-profit and at or below the
stop-loss. -/
theorem long_entry_tp_sl_exclusive (s s2 : ScalpState) (ob : Option OrderBook)
    (t : Option ℚ) (hpt : 0 < s.profit_target) (hsl : 0 < s.stop_loss)
    (hflat : s.current_position = none)
    (hrun : generate_signal s ob t = Except.ok (Signal.buy, s2)) :
    0 < s2.entry_price ∧ s2.take_profit_price > s2.entry_price ∧
      s2.entry_price > s2.stop_loss_price ∧
      ∀ mark : ℚ, ¬(mark ≥ s2.take_profit_price ∧ mark ≤ s2.stop_loss_price) := by
  have han : analyze_order_book_for_entry s ob = Except.ok (Signal.buy, s2) := by
    unfold generate_signal at hrun
    rcases hl : s.last_signal_time with _ | t0 <;> rcases t with _ | tc <;>
      rw [hl] at hrun <;> rw [hflat] at hrun <;> dsimp only at hrun
    · exact hrun
    · exact hrun
    · exact hrun
    · split_ifs at hrun with hcool
      · simp at hrun
      · exact hrun
  obtain ⟨he, htp, hsl2⟩ := analyze_long_entry s s2 ob hpt hsl han
  refine ⟨he, htp, hsl2, ?_⟩
  intro mark ⟨hm1, hm2⟩
  linarith

/-- Witness for C8: the depth-1 default-parameter strategy on a one-level
book with strong bid pressure opens a Long at `1009/10` with
`take_profit_price > entry_price > stop_loss_price`. -/
theorem long_entry_tp_sl_exclusive_witness :
    0 < scalp_opened1.entry_price ∧
      scalp_opened1.take_profit_price > scalp_opened1.entry_price ∧
      scalp_opened1.entry_price > scalp_opened1.stop_loss_price :=
  let h := long_entry_tp_sl_exclusive scalp_depth1 scalp_opened1 entry_book1 none
    (by norm_num [scalp_depth1, scalping_init])
    (by norm_num [scalp_depth1, scalping_init])
    (by simp [scalp_depth1, scalping_init])
    (by
      simp [generate_signal, analyze_order_book_for_entry, scalp_depth1,
        scalping_init, entry_book1, open_position, scalp_opened1]
      norm_num)
  ⟨h.1, h.2.1, h.2.2.1⟩

/-- A run of bars on which the strategy always answers `Hold` leaves
capital and position untouched (only the equity curve grows). -/
theorem backtest_loop_hold_phase (strat : List Bar → Signal) (comm : ℚ) :
    ∀ (l hist : List Bar) (i : ℕ) (st : BTState),
      (∀ k, k < l.length → strat (hist ++ l.take (k+1)) = Signal.hold) →
      ∃ st2, backtest_loop strat comm hist l i st = Except.ok st2 ∧
        st2.capital = st.capital ∧ st2.position = st.position := by
  intro l
  induction l with
  | nil =>
    intro hist i st _
    exact ⟨st, rfl, rfl, rfl⟩
  | cons b rest ih =>
    intro hist i st hh
    have hsig : strat (hist ++ [b]) = Signal.hold := by
      have h0 := hh 0 (by simp)
      simpa using h0
    have hstep : backtest_step strat comm hist i b st = Except.ok
        { st with equity_curve :=
            st.equity_curve ++ [st.capital + st.position * b.close] } := by
      unfold backtest_step
      rw [hsig]
      simp [Except.map]
    rw [backtest_loop, hstep]
    obtain ⟨st2, hrun, hcap, hpos⟩ := ih (hist ++ [b]) (i+1)
      { st with equity_curve :=
          st.equity_curve ++ [st.capital + st.position * b.close] }
      (by
        intro k hk
        have h2 := hh (k+1) (by simpa using Nat.succ_lt_succ hk)
        simpa [List.take_succ_cons, List.append_assoc] using h2)
    exact ⟨st2, hrun, hcap, hpos⟩

/-- Splitting a backtest run at a successful first segment. -/
theorem backtest_loop_append_ok (strat : List Bar → Signal) (comm : ℚ)
    (l1 : List Bar) :
    ∀ (l2 hist : List Bar) (i : ℕ) (st st2 : BTState),
      backtest_loop strat comm hist l1 i st = Except.ok st2 →
      backtest_loop strat comm hist (l1 ++ l2) i st =
        backtest_loop strat comm (hist ++ l1) l2 (i + l1.length) st2 := by
  induction l1 with
  | nil =>
    intro l2 hist i st st2 h
    simp only [backtest_loop, Except.ok.injEq] at h
    subst h
    simp
  | cons b t ih =>
    intro l2 hist i st st2 h
    rw [backtest_loop] at h
    rw [List.cons_append, backtest_loop]
    cases hstep : backtest_step strat comm hist i b st with
    | error e =>
      rw [hstep] at h
      simp at h
    | ok stm =>
      rw [hstep] at h
      dsimp only at h ⊢
      rw [ih l2 (hist ++ [b]) (i+1) stm st2 h]
      have hlist : (hist ++ [b]) ++ t = hist ++ b :: t := by simp
      have hnat : i + 1 + t.length = i + (t.length + 1) := by omega
      rw [hlist, hnat]
      rfl

/-- A `Buy` on a flat position at a non-zero close invests all capital. -/
theorem backtest_step_buy (strat : List Bar → Signal) (comm : ℚ)
    (hist : List Bar) (i : ℕ) (b : Bar) (st : BTState)
    (hsig : strat (hist ++ [b]) = Signal.buy) (hpos : st.position = 0)
    (hprice : b.close ≠ 0) :
    backtest_step strat comm hist i b st = Except.ok
      { capital := 0
        position := st.capital / b.close
        trades := st.trades ++
          [⟨i, Signal.buy, b.close, st.capital / b.close,
            st.capital / b.close * b.close * comm⟩]
        equity_curve := st.equity_curve ++
          [0 + st.capital / b.close * b.close] } := by
  unfold backtest_step
  rw [hsig]
  simp [hpos, hprice, Except.map]

/-- A `Sell` on a positive position liquidates it net of the fee. -/
theorem backtest_step_sell (strat : List Bar → Signal) (comm : ℚ)
    (hist : List Bar) (i : ℕ) (b : Bar) (st : BTState)
    (hsig : strat (hist ++ [b]) = Signal.sell) (hpos : 0 < st.position) :
    backtest_step strat comm hist i b st = Except.ok
      { capital := st.position * b.close - st.position * b.close * comm
        position := 0
        trades := st.trades ++
          [⟨i, Signal.sell, b.close, st.position,
            st.position * b.close * comm⟩]
        equity_curve := st.equity_curve ++
          [st.position * b.close - st.position * b.close * comm +
            0 * b.close] } := by
  unfold backtest_step
  rw [hsig]
  simp [hpos, Except.map, not_lt.mpr, hpos.ne]

/-- A `Sell` with no positive position is a no-op except for the equity
point. -/
theorem backtest_step_sell_flat (strat : List Bar → Signal) (comm : ℚ)
    (hist : List Bar) (i : ℕ) (b : Bar) (st : BTState)
    (hsig : strat (hist ++ [b]) = Signal.sell) (hpos : ¬ 0 < st.position) :
    backtest_step strat comm hist i b st = Except.ok
      { st with equity_curve :=
          st.equity_curve ++ [st.capital + st.position * b.close] } := by
  unfold backtest_step
  rw [hsig]
  simp [hpos, Except.map]

/-- Claim C7 (amended): with a **non-negative** initial capital and a
positive price, a backtest whose strategy holds, then buys, then
immediately sells at the same close price, then holds, with zero
commission, ends with its capital equal to the initial capital exactly
(and a flat position).  (For negative initial capital the claim fails:
see the counterexample.) -/
theorem round_trip_capital_conservation (strat : List Bar → Signal)
    (c p : ℚ) (hc : 0 ≤ c) (hp : 0 < p)
    (pre post : List Bar) (b1 b2 : Bar)
    (hb1 : b1.close = p) (hb2 : b2.close = p)
    (hpre : ∀ k, k < pre.length → strat (pre.take (k+1)) = Signal.hold)
    (hbuy : strat (pre ++ [b1]) = Signal.buy)
    (hsell : strat (pre ++ [b1, b2]) = Signal.sell)
    (hpost : ∀ k, k < post.length →
      strat ((pre ++ [b1, b2]) ++ post.take (k+1)) = Signal.hold) :
    (backtest_loop strat 0 [] (pre ++ b1 :: b2 :: post) 0
        ⟨c, 0, [], []⟩).map (fun st => (st.capital, st.position)) =
      Except.ok (c, 0) := by
  obtain ⟨st1, hrun1, hcap1, hpos1⟩ := backtest_loop_hold_phase strat 0 pre [] 0
    ⟨c, 0, [], []⟩ (by intro k hk; simpa using hpre k hk)
  rw [backtest_loop_append_ok strat 0 pre (b1 :: b2 :: post) [] 0 _ st1 hrun1]
  have hbuy1 : strat (([] ++ pre) ++ [b1]) = Signal.buy := by simpa using hbuy
  have hprice1 : b1.close ≠ 0 := by rw [hb1]; exact hp.ne'
  rw [backtest_loop,
    backtest_step_buy strat 0 ([] ++ pre) (0 + pre.length) b1 st1 hbuy1 hpos1 hprice1]
  dsimp only
  have hsell1 : strat ((([] ++ pre) ++ [b1]) ++ [b2]) = Signal.sell := by
    simpa [List.append_assoc] using hsell
  rcases hc.eq_or_lt with hc0 | hcpos
  · -- zero initial capital: the sell never fires, capital stays 0 = c
    have hpos2 : ¬ (0 : ℚ) < st1.capital / b1.close := by
      rw [hcap1, ← hc0]
      simp
    rw [backtest_loop,
      backtest_step_sell_flat strat 0 (([] ++ pre) ++ [b1]) (0 + pre.length + 1)
        b2 _ hsell1 (by simpa using hpos2)]
    dsimp only
    obtain ⟨stf, hrunf, hcapf, hposf⟩ := backtest_loop_hold_phase strat 0 post
      ((([] ++ pre) ++ [b1]) ++ [b2]) (0 + pre.length + 1 + 1) _
      (by intro k hk; simpa [List.append_assoc] using hpost k hk)
    rw [hrunf]
    simp only [Except.map, Except.ok.injEq, Prod.mk.injEq]
    refine ⟨?_, ?_⟩
    · show stf.capital = c
      rw [hcapf]
      show (0 : ℚ) = c
      exact hc0
    · show stf.position = 0
      rw [hposf]
      show st1.capital / b1.close = 0
      rw [hcap1, ← hc0]
      simp
  · -- positive initial capital: the sell restores the capital exactly
    have hpos2 : (0 : ℚ) < st1.capital / b1.close := by
      rw [hcap1, hb1]
      exact div_pos hcpos hp
    rw [backtest_loop,
      backtest_step_sell strat 0 (([] ++ pre) ++ [b1]) (0 + pre.length + 1)
        b2 _ hsell1 (by simpa using hpos2)]
    dsimp only
    obtain ⟨stf, hrunf, hcapf, hposf⟩ := backtest_loop_hold_phase strat 0 post
      ((([] ++ pre) ++ [b1]) ++ [b2]) (0 + pre.length + 1 + 1) _
      (by intro k hk; simpa [List.append_assoc] using hpost k hk)
    rw [hrunf]
    simp only [Except.map, Except.ok.injEq, Prod.mk.injEq]
    refine ⟨?_, ?_⟩
    · show stf.capital = c
      rw [hcapf]
      show st1.capital / b1.close * b2.close -
          st1.capital / b1.close * b2.close * 0 = c
      rw [hcap1, hb1, hb2]
      field_simp
    · show stf.position = 0
      rw [hposf]

/-- Witness for C7 (amended): buy at close 2, sell at close 2, capital
100, commission 0 — the run ends with capital 100 and a flat position. -/
theorem round_trip_capital_conservation_witness :
    (backtest_loop buy_then_sell 0 [] ([] ++ mk_bar 2 :: mk_bar 2 :: []) 0
        ⟨100, 0, [], []⟩).map (fun st => (st.capital, st.position)) =
      Except.ok (100, 0) :=
  round_trip_capital_conservation buy_then_sell 100 2 (by norm_num) (by norm_num)
    [] [] (mk_bar 2) (mk_bar 2) rfl rfl
    (by intro k hk; exact absurd hk (Nat.not_lt_zero k))
    (by rfl) (by rfl)
    (by intro k hk; exact absurd hk (Nat.not_lt_zero k))

end CryptoTrader
